import Mathlib

/-!
Verification of the eHive Sphinx extension `docs/xhive/misc.py`.

The module defines a custom `hivestatus` inline role: `hivestatus_role`
parses the raw role text into a node carrying a status key and a label,
`load_colours_if_needed` populates the module-global `hive_colours` table
from `$EHIVE_ROOT_DIR/hive_config.json`, and the visit/depart callbacks
emit HTML / LaTeX markup around the label using the colour looked up by
status key.

The embedding below models the Python dictionary `hive_colours` as an
association list with in-place overwrite on key collision (Python dict
assignment semantics), the JSON configuration sub-tables
`Graph.Node.AnalysisStatus` / `Graph.Node.JobStatus` as association lists
of labels to JSON values, and the process state (global table, number of
file reads performed, and the writer's `self.body` list) explicitly.
Failures (uncaught Python exceptions) are modelled with `Except`.
-/

namespace XHive

/-- A JSON value stored under a status label in one of the two configuration
sub-tables. The code keeps only entries that are dicts (`isinstance(v, dict)`)
and takes their `"Colour"` field; scalar entries are skipped. Per the
configuration-file contract, a dict entry carries a `Colour` string, which
`record` holds directly. -/
inductive JVal where
  | scalar (v : String)
  | record (colour : String)
  deriving DecidableEq, Repr

/-- Python dict assignment `d[k] = v` on an association list: overwrite the
existing binding of `k` in place, or append a new binding at the end. -/
def dictInsert : List (String × String) → String → String → List (String × String)
  | [], k, v => [(k, v)]
  | (k', v') :: rest, k, v =>
      if k' = k then (k, v) :: rest else (k', v') :: dictInsert rest k v

/-- Python dict lookup `d[k]`: the binding of the first matching key
(`dictInsert` keeps keys unique, so this is the only one). `none` models a
`KeyError`. -/
def dictLookup : List (String × String) → String → Option String
  | [], _ => none
  | (k', v') :: rest, k => if k' = k then some v' else dictLookup rest k

/-- One pass of `load_colours_if_needed` over a configuration sub-table:
`for s in hash: if isinstance(hash[s], dict): hive_colours[s] = hash[s]["Colour"]`. -/
def addColours (t : List (String × String)) (hash : List (String × JVal)) :
    List (String × String) :=
  hash.foldl (fun acc kv =>
    match kv.2 with
    | .scalar _ => acc
    | .record c => dictInsert acc kv.1 c) t

/-- Outcome of locating, opening and parsing the configuration file, which the
code performs at the start of every `load_colours_if_needed` call:
`os.environ["EHIVE_ROOT_DIR"]` (may be unset), `open(...)` (may fail),
`json.load(...)` (may fail), and the nested key accesses
`conf_content["Graph"]["Node"]["AnalysisStatus" / "JobStatus"]` (may fail).
On success it yields the two sub-tables. -/
inductive ConfigSource where
  | envUnset
  | fileError
  | jsonError
  | missingKeys
  | ok (asHash jsHash : List (String × JVal))
  deriving DecidableEq, Repr

/-- The uncaught Python exception escaping `load_colours_if_needed` on each
failure path: `KeyError` from `os.environ`, `OSError` from `open`,
`JSONDecodeError` from `json.load`, `KeyError` from the nested key accesses.
The specification's error taxonomy groups all four as `ConfigurationError`. -/
inductive ConfigurationError where
  | envUnset
  | fileError
  | jsonError
  | missingKeys
  deriving DecidableEq, Repr

/-- Process state: the module-global `hive_colours` dict, the number of
configuration-file reads performed so far in this process, and the writer's
`self.body` output list. -/
structure HiveState where
  colours : List (String × String)
  readCount : Nat
  body : List String
  deriving DecidableEq, Repr

/-- State at interpreter start: `hive_colours = {}`, no file read yet, empty
writer body. -/
def initState : HiveState := ⟨[], 0, []⟩

/-- Model of `load_colours_if_needed()`. The Python body unconditionally
builds the path, opens and reads the file, and merges both sub-tables into
the global dict — there is no guard checking whether `hive_colours` is
already populated, so `readCount` grows on every successful call. Failure
paths propagate the corresponding uncaught exception. -/
def load_colours_if_needed (cfg : ConfigSource) (st : HiveState) :
    Except ConfigurationError HiveState :=
  match cfg with
  | .envUnset => .error .envUnset
  | .fileError => .error .fileError
  | .jsonError => .error .jsonError
  | .missingKeys => .error .missingKeys
  | .ok asHash jsHash =>
      .ok { st with
              colours := addColours (addColours st.colours asHash) jsHash,
              readCount := st.readCount + 1 }

/-- The uncaught exception escaping `hivestatus_role` when the raw text has
no `>`: `text.index('>')` raises `ValueError`, which the specification's
error taxonomy classifies as the markup-syntax (malformed-role) error. -/
inductive MarkupSyntaxError where
  | missingDelimiter
  deriving DecidableEq, Repr

/-- The `hivestatus` docutils node: attribute `status` plus a single
`nodes.Text` child holding the label. -/
structure Hivestatus where
  status : String
  label : String
  deriving DecidableEq, Repr

/-- Python `text.index(c)`: index of the first occurrence of `c`, or `none`
for the `ValueError` raise when `c` is absent. -/
def pyIndex (c : Char) : List Char → Option Nat
  | [] => none
  | x :: xs => if x = c then some 0 else (pyIndex c xs).map (· + 1)

/-- Python `str.strip()`: remove leading and trailing whitespace (modelled
with `Char.isWhitespace`, covering space, tab, carriage return, newline). -/
def pyStrip (l : List Char) : List Char :=
  ((l.dropWhile Char.isWhitespace).reverse.dropWhile Char.isWhitespace).reverse

/-- Model of `hivestatus_role`: `status = text[1:text.index('>')]` and
`text = text[text.index('>')+1:].strip()`; the node gets the stripped text
as its single child and `status` as its attribute. A missing `>` raises.
Python's slice `text[1:i]` is `(text.drop 1).take (i - 1)` (empty when
`i ≤ 1`, matching `text[1:0] = ""`). -/
def hivestatus_role (text : List Char) : Except MarkupSyntaxError Hivestatus :=
  match pyIndex '>' text with
  | none => .error .missingDelimiter
  | some i =>
      .ok { status := ((text.drop 1).take (i - 1)).asString,
            label := (pyStrip (text.drop (i + 1))).asString }

/-- The uncaught exception escaping a visit callback: either the
configuration failure from `load_colours_if_needed`, or the `KeyError` from
`hive_colours[node['status']]`. -/
inductive VisitError where
  | config (e : ConfigurationError)
  | keyError
  deriving DecidableEq, Repr

/-- Model of `visit_hivestatus_html`: first call `load_colours_if_needed()`,
then append `'<span style="background-color:%s">' % hive_colours[node['status']]`
to `self.body`. -/
def visit_hivestatus_html (cfg : ConfigSource) (st : HiveState)
    (node : Hivestatus) : Except VisitError HiveState :=
  match load_colours_if_needed cfg st with
  | .error e => .error (.config e)
  | .ok st1 =>
      match dictLookup st1.colours node.status with
      | none => .error .keyError
      | some c =>
          .ok { st1 with
                  body := st1.body ++
                    ["<span style=\"background-color:" ++ c ++ "\">"] }

/-- Model of `depart_hivestatus_html`: append `'</span>'`. -/
def depart_hivestatus_html (st : HiveState) : HiveState :=
  { st with body := st.body ++ ["</span>"] }

/-- Model of `visit_hivestatus_latex`: first call `load_colours_if_needed()`,
then append `'\n\colorbox{%s}{' % hive_colours[node['status']]`. -/
def visit_hivestatus_latex (cfg : ConfigSource) (st : HiveState)
    (node : Hivestatus) : Except VisitError HiveState :=
  match load_colours_if_needed cfg st with
  | .error e => .error (.config e)
  | .ok st1 =>
      match dictLookup st1.colours node.status with
      | none => .error .keyError
      | some c =>
          .ok { st1 with
                  body := st1.body ++ ["\n\\colorbox\x7b" ++ c ++ "\x7d\x7b"] }

/-- Model of `depart_hivestatus_latex`: append `'}'`. -/
def depart_hivestatus_latex (st : HiveState) : HiveState :=
  { st with body := st.body ++ ["\x7d"] }

/-- Rendering one `hivestatus` node on the HTML backend: the framework runs
the visit callback, renders the single `Text` child (appending the label's
text), then runs the depart callback. -/
def renderNode_html (cfg : ConfigSource) (st : HiveState)
    (node : Hivestatus) : Except VisitError HiveState :=
  match visit_hivestatus_html cfg st node with
  | .error e => .error e
  | .ok st1 => .ok (depart_hivestatus_html { st1 with body := st1.body ++ [node.label] })

/-- Rendering one `hivestatus` node on the LaTeX backend, analogously. -/
def renderNode_latex (cfg : ConfigSource) (st : HiveState)
    (node : Hivestatus) : Except VisitError HiveState :=
  match visit_hivestatus_latex cfg st node with
  | .error e => .error e
  | .ok st1 => .ok (depart_hivestatus_latex { st1 with body := st1.body ++ [node.label] })

/-- The colour assigned to `s` by the LAST record entry for `s` in a
sub-table, if any: the value `s` ends up with after the sub-table's loop. -/
def lastRecordColour : List (String × JVal) → String → Option String
  | [], _ => none
  | kv :: h, s =>
      match lastRecordColour h s with
      | some c => some c
      | none =>
          match kv.2 with
          | .record c => if kv.1 = s then some c else none
          | .scalar _ => none

/-! Basic lemmas about the table operations. -/

theorem dictLookup_dictInsert (t : List (String × String)) (k v s : String) :
    dictLookup (dictInsert t k v) s = if k = s then some v else dictLookup t s := by
  induction t with
  | nil =>
      by_cases h : k = s <;> simp [dictInsert, dictLookup, h]
  | cons kv rest ih =>
      obtain ⟨k', v'⟩ := kv
      by_cases hk : k' = k
      · subst hk
        by_cases hs : k' = s <;> simp [dictInsert, dictLookup, hs]
      · by_cases hs : k' = s
        · subst hs
          have hk' : ¬ k = k' := fun h => hk h.symm
          simp [dictInsert, dictLookup, hk, hk']
        · simp [dictInsert, dictLookup, hk, hs, ih]

theorem dictLookup_addColours (h : List (String × JVal))
    (t : List (String × String)) (s : String) :
    dictLookup (addColours t h) s =
      (lastRecordColour h s).or (dictLookup t s) := by
  induction h generalizing t with
  | nil => simp [addColours, lastRecordColour, Option.or]
  | cons kv rest ih =>
      obtain ⟨k, jv⟩ := kv
      cases jv with
      | scalar v =>
          have hstep : addColours t ((k, JVal.scalar v) :: rest) = addColours t rest := rfl
          rw [hstep, ih]
          cases hrest : lastRecordColour rest s <;>
            simp [lastRecordColour, hrest]
      | record c =>
          have hstep : addColours t ((k, JVal.record c) :: rest)
              = addColours (dictInsert t k c) rest := rfl
          rw [hstep, ih]
          cases hrest : lastRecordColour rest s with
          | some c' => simp [lastRecordColour, hrest, Option.or]
          | none =>
              by_cases hk : k = s
              · simp [lastRecordColour, hrest, Option.or, dictLookup_dictInsert, hk]
              · simp [lastRecordColour, hrest, Option.or, dictLookup_dictInsert, hk]

/-- The colour looked up after both sub-table loops: the job-status table's
last record for `s` wins, then the analysis-status table's, then whatever
the table held before the call. -/
theorem dictLookup_after_load (asHash jsHash : List (String × JVal))
    (t : List (String × String)) (s : String) :
    dictLookup (addColours (addColours t asHash) jsHash) s =
      ((lastRecordColour jsHash s).or ((lastRecordColour asHash s).or (dictLookup t s))) := by
  rw [dictLookup_addColours, dictLookup_addColours]

theorem lastRecordColour_mem {h : List (String × JVal)} {s c : String}
    (hl : lastRecordColour h s = some c) : (s, JVal.record c) ∈ h := by
  induction h with
  | nil => simp [lastRecordColour] at hl
  | cons kv rest ih =>
      rw [lastRecordColour] at hl
      cases hrest : lastRecordColour rest s with
      | some c' =>
          rw [hrest] at hl
          exact List.mem_cons_of_mem _ (ih (hrest.trans hl))
      | none =>
          rw [hrest] at hl
          obtain ⟨k, jv⟩ := kv
          cases jv with
          | scalar v => simp at hl
          | record c' =>
              by_cases hk : k = s
              · subst hk
                simp only [if_pos rfl] at hl
                injection hl with hcc
                subst hcc
                exact List.mem_cons_self _ _
              · simp [hk] at hl

theorem lastRecordColour_eq_none {h : List (String × JVal)} {s : String}
    (hn : lastRecordColour h s = none) : ∀ c, (s, JVal.record c) ∉ h := by
  induction h with
  | nil => simp
  | cons kv rest ih =>
      rw [lastRecordColour] at hn
      cases hrest : lastRecordColour rest s with
      | some c' => rw [hrest] at hn; cases hn
      | none =>
          rw [hrest] at hn
          intro c hc
          rcases List.mem_cons.mp hc with heq | hmem
          · rw [← heq] at hn
            simp at hn
          · exact ih hrest c hmem

theorem lastRecordColour_isSome {h : List (String × JVal)} {s c : String}
    (hc : (s, JVal.record c) ∈ h) : ∃ c', lastRecordColour h s = some c' := by
  cases hl : lastRecordColour h s with
  | some c' => exact ⟨c', rfl⟩
  | none => exact absurd hc (lastRecordColour_eq_none hl c)

/-! Lemmas about the role parser. -/

theorem pyIndex_eq_none {c : Char} {l : List Char} (h : c ∉ l) :
    pyIndex c l = none := by
  induction l with
  | nil => rfl
  | cons x xs ih =>
      have hx : ¬ x = c := fun he => h (he ▸ List.mem_cons_self x xs)
      rw [pyIndex, if_neg hx, ih (fun hm => h (List.mem_cons_of_mem _ hm))]
      rfl

theorem pyIndex_append_gt (pre post : List Char) (h : '>' ∉ pre) :
    pyIndex '>' (pre ++ '>' :: post) = some pre.length := by
  induction pre with
  | nil => simp [pyIndex]
  | cons a pre ih =>
      have ha : ¬ a = '>' := fun he => h (he ▸ List.mem_cons_self a pre)
      have hrest : '>' ∉ pre := fun hm => h (List.mem_cons_of_mem _ hm)
      rw [List.cons_append, pyIndex, if_neg ha, ih hrest]
      rfl

theorem take_before_gt (pre post : List Char) :
    ((pre ++ '>' :: post).drop 1).take (pre.length - 1) = pre.drop 1 := by
  cases pre with
  | nil => rfl
  | cons a pre =>
      have h1 : ((a :: pre) ++ '>' :: post).drop 1 = pre ++ '>' :: post := rfl
      have h2 : (a :: pre).length - 1 = pre.length := rfl
      rw [h1, h2, List.take_left]
      rfl

theorem drop_after_gt (pre post : List Char) :
    (pre ++ '>' :: post).drop (pre.length + 1) = post := by
  induction pre with
  | nil => rfl
  | cons a pre ih => simp [ih]

/-- Parsing text whose first `'>'` follows the prefix `pre`: the status is
`pre` without its leading character, and the label is the rest, stripped. -/
theorem hivestatus_role_split (pre post : List Char) (h : '>' ∉ pre) :
    hivestatus_role (pre ++ '>' :: post) =
      .ok ⟨((pre.drop 1).asString), ((pyStrip post).asString)⟩ := by
  rw [hivestatus_role, pyIndex_append_gt pre post h]
  show Except.ok (Hivestatus.mk ((((pre ++ '>' :: post).drop 1).take (pre.length - 1)).asString)
        ((pyStrip ((pre ++ '>' :: post).drop (pre.length + 1))).asString)) =
      Except.ok (Hivestatus.mk ((pre.drop 1).asString) ((pyStrip post).asString))
  rw [take_before_gt, drop_after_gt]

/-! Claim theorems. -/

/-- C4: for every raw role text containing a `'>'` character — written as
`pre ++ '>' :: post` with the first `'>'` ending the prefix — parsing
succeeds with status the substring strictly between the leading character
and that first `'>'` (`pre.drop 1`) and the label the remaining text with
surrounding whitespace stripped. -/
theorem role_parses_status_then_stripped_label (text pre post : List Char)
    (hsplit : text = pre ++ '>' :: post) (hpre : '>' ∉ pre) :
    hivestatus_role text =
      .ok ⟨((pre.drop 1).asString), ((pyStrip post).asString)⟩ := by
  rw [hsplit]
  exact hivestatus_role_split pre post hpre

/-- C4 witness: parsing the concrete text from the specification,
`"<done>All finished"`, yields status `"done"` and label `"All finished"`. -/
theorem role_parses_status_then_stripped_label_witness :
    "<done>All finished".toList = "<done".toList ++ '>' :: "All finished".toList ∧
    '>' ∉ "<done".toList ∧
    hivestatus_role "<done>All finished".toList = .ok ⟨"done", "All finished"⟩ :=
  ⟨by decide, by decide,
    (role_parses_status_then_stripped_label "<done>All finished".toList
      "<done".toList "All finished".toList (by decide) (by decide)).trans (by rfl)⟩

/-- C5: for every raw role text with no `'>'` character, parsing does not
produce a node: `text.index` raises, and the uncaught exception is the
malformed-role markup-syntax error of the error taxonomy. -/
theorem role_fails_without_delimiter (text : List Char) (h : '>' ∉ text) :
    hivestatus_role text = .error MarkupSyntaxError.missingDelimiter := by
  rw [hivestatus_role, pyIndex_eq_none h]

/-- C5 witness: parsing `"no delimiter here"` fails with the markup-syntax
error. -/
theorem role_fails_without_delimiter_witness :
    '>' ∉ "no delimiter here".toList ∧
    hivestatus_role "no delimiter here".toList =
      .error MarkupSyntaxError.missingDelimiter :=
  ⟨by decide, role_fails_without_delimiter "no delimiter here".toList (by decide)⟩

/-- C10: the parser never checks that the text begins with `'<'`. For every
first character `a` (any character other than `'>'`), parsing
`a :: mid ++ '>' :: post` yields status `mid` — the characters between index
1 and the first `'>'` — regardless of what `a` is; in particular a text whose
first `'>'` is at index 1 yields the empty-string status. -/
theorem role_ignores_leading_character (a : Char) (mid post : List Char)
    (ha : a ≠ '>') (hmid : '>' ∉ mid) :
    hivestatus_role (a :: mid ++ '>' :: post) =
      .ok ⟨(mid.asString), ((pyStrip post).asString)⟩ := by
  have hpre : '>' ∉ a :: mid := by
    intro hm
    rcases List.mem_cons.mp hm with he | hm'
    · exact ha he.symm
    · exact hmid hm'
  have h := hivestatus_role_split (a :: mid) post hpre
  simpa using h

/-- C10 witness: `"xdone>Label"` (leading character not `'<'`) parses to the
shifted status `"done"`, and `"<>label"` (first `'>'` at index 1) parses to
the empty-string status. -/
theorem role_ignores_leading_character_witness :
    ('x' ≠ '>' ∧ '>' ∉ "done".toList ∧
      hivestatus_role "xdone>Label".toList = .ok ⟨"done", "Label"⟩) ∧
    ('<' ≠ '>' ∧
      hivestatus_role "<>label".toList = .ok ⟨"", "label"⟩) :=
  ⟨⟨by decide, by decide,
      (role_ignores_leading_character 'x' "done".toList "Label".toList
        (by decide) (by decide)).trans (by rfl)⟩,
   ⟨by decide,
      (role_ignores_leading_character '<' [] "label".toList
        (by decide) (by decide)).trans (by rfl)⟩⟩

/-- C1: evidence against the idempotence claim. On a fixed valid
configuration, a second successful call to `load_colours_if_needed`
performs a second file read (`readCount` reaches 2) — the body has no
guard on `hive_colours` being populated — even though it leaves the
colour table exactly as the first call left it. -/
theorem load_colours_rereads_file_on_every_call :
    ∃ st1 st2 : HiveState,
      load_colours_if_needed
          (.ok [("DONE", JVal.record "DarkGreen"), ("CLAIMED", JVal.scalar "-")]
               [("SEMAPHORED", JVal.record "grey")]) initState = .ok st1 ∧
      load_colours_if_needed
          (.ok [("DONE", JVal.record "DarkGreen"), ("CLAIMED", JVal.scalar "-")]
               [("SEMAPHORED", JVal.record "grey")]) st1 = .ok st2 ∧
      st1.readCount = 1 ∧ st2.readCount = 2 ∧ st2.colours = st1.colours := by
  refine ⟨⟨[("DONE", "DarkGreen"), ("SEMAPHORED", "grey")], 1, []⟩,
          ⟨[("DONE", "DarkGreen"), ("SEMAPHORED", "grey")], 2, []⟩, ?_, ?_, rfl, rfl, rfl⟩
  · rfl
  · rfl

/-- C8: when the configuration cannot be located, read, parsed, or its
nested keys are absent, `load_colours_if_needed` fails with the
corresponding configuration error, which propagates uncaught — it never
returns successfully, so it never silently defaults to an empty colour
table. -/
theorem ensure_loaded_fails_on_bad_config (cfg : ConfigSource) (st : HiveState)
    (h : ∀ asHash jsHash, cfg ≠ ConfigSource.ok asHash jsHash) :
    ∃ e : ConfigurationError,
      load_colours_if_needed cfg st = .error e ∧
      ∀ st', load_colours_if_needed cfg st ≠ .ok st' := by
  cases cfg with
  | envUnset => exact ⟨.envUnset, rfl, fun st' hc => Except.noConfusion hc⟩
  | fileError => exact ⟨.fileError, rfl, fun st' hc => Except.noConfusion hc⟩
  | jsonError => exact ⟨.jsonError, rfl, fun st' hc => Except.noConfusion hc⟩
  | missingKeys => exact ⟨.missingKeys, rfl, fun st' hc => Except.noConfusion hc⟩
  | ok a j => exact absurd rfl (h a j)

/-- C8 witness: with the environment variable unset, loading from the empty
initial state fails and never yields a table. -/
theorem ensure_loaded_fails_on_bad_config_witness :
    (∀ asHash jsHash, ConfigSource.envUnset ≠ ConfigSource.ok asHash jsHash) ∧
    ∃ e : ConfigurationError,
      load_colours_if_needed ConfigSource.envUnset initState = .error e ∧
      ∀ st', load_colours_if_needed ConfigSource.envUnset initState ≠ .ok st' :=
  ⟨fun _ _ hc => ConfigSource.noConfusion hc,
   ensure_loaded_fails_on_bad_config ConfigSource.envUnset initState
     (fun _ _ hc => ConfigSource.noConfusion hc)⟩

/-- C2: after loading a well-formed configuration from the empty initial
state, (i) every label carrying a structured record in either sub-table is
present in the colour table, mapped to the `Colour` of one of its records;
(ii) when all of a label's records agree on one colour — in particular when
the label has a record in only one sub-table — the table maps it to exactly
that record's `Colour`; (iii) every label with no structured record (its
entries, if any, are scalars) is absent from the table. -/
theorem colour_table_contents (asHash jsHash : List (String × JVal))
    (s : String) (st' : HiveState)
    (hload : load_colours_if_needed (.ok asHash jsHash) initState = .ok st') :
    ((∃ c, (s, JVal.record c) ∈ asHash ++ jsHash) →
        ∃ c', dictLookup st'.colours s = some c' ∧
          (s, JVal.record c') ∈ asHash ++ jsHash) ∧
    (∀ c, (s, JVal.record c) ∈ asHash ++ jsHash →
        (∀ c', (s, JVal.record c') ∈ asHash ++ jsHash → c' = c) →
        dictLookup st'.colours s = some c) ∧
    ((∀ c, (s, JVal.record c) ∉ asHash ++ jsHash) →
        dictLookup st'.colours s = none) := by
  have hcol : st'.colours = addColours (addColours [] asHash) jsHash := by
    cases hload
    rfl
  have hlook : dictLookup st'.colours s =
      (lastRecordColour jsHash s).or ((lastRecordColour asHash s).or none) := by
    rw [hcol, dictLookup_after_load]
    rfl
  refine ⟨?_, ?_, ?_⟩
  · rintro ⟨c, hc⟩
    cases hjs : lastRecordColour jsHash s with
    | some cj =>
        refine ⟨cj, ?_, List.mem_append_right _ (lastRecordColour_mem hjs)⟩
        rw [hlook, hjs]
        rfl
    | none =>
        cases has : lastRecordColour asHash s with
        | some ca =>
            refine ⟨ca, ?_, List.mem_append_left _ (lastRecordColour_mem has)⟩
            rw [hlook, hjs, has]
            rfl
        | none =>
            rcases List.mem_append.mp hc with h1 | h1
            · exact absurd h1 (lastRecordColour_eq_none has c)
            · exact absurd h1 (lastRecordColour_eq_none hjs c)
  · intro c hc huniq
    cases hjs : lastRecordColour jsHash s with
    | some cj =>
        have hcj : cj = c :=
          huniq cj (List.mem_append_right _ (lastRecordColour_mem hjs))
        rw [hlook, hjs, hcj]
        rfl
    | none =>
        cases has : lastRecordColour asHash s with
        | some ca =>
            have hca : ca = c :=
              huniq ca (List.mem_append_left _ (lastRecordColour_mem has))
            rw [hlook, hjs, has, hca]
            rfl
        | none =>
            rcases List.mem_append.mp hc with h1 | h1
            · exact absurd h1 (lastRecordColour_eq_none has c)
            · exact absurd h1 (lastRecordColour_eq_none hjs c)
  · intro hnone
    have hjs : lastRecordColour jsHash s = none := by
      cases hjs : lastRecordColour jsHash s with
      | none => rfl
      | some cj =>
          exact absurd (List.mem_append_right asHash (lastRecordColour_mem hjs))
            (hnone cj)
    have has : lastRecordColour asHash s = none := by
      cases has : lastRecordColour asHash s with
      | none => rfl
      | some ca =>
          exact absurd (List.mem_append_left jsHash (lastRecordColour_mem has))
            (hnone ca)
    rw [hlook, hjs, has]
    rfl

/-- C2 witness: loading a configuration in which `"DONE"` has a record with
colour `"DarkGreen"` (in the analysis sub-table only) and `"CLAIMED"` has
only a scalar entry puts `"DONE" ↦ "DarkGreen"` in the table and leaves
`"CLAIMED"` out of it. -/
theorem colour_table_contents_witness :
    load_colours_if_needed
        (.ok [("DONE", JVal.record "DarkGreen"), ("CLAIMED", JVal.scalar "-")]
             [("SEMAPHORED", JVal.record "grey")]) initState =
      .ok ⟨[("DONE", "DarkGreen"), ("SEMAPHORED", "grey")], 1, []⟩ ∧
    dictLookup ([("DONE", "DarkGreen"), ("SEMAPHORED", "grey")] :
        List (String × String)) "DONE" = some "DarkGreen" ∧
    dictLookup ([("DONE", "DarkGreen"), ("SEMAPHORED", "grey")] :
        List (String × String)) "CLAIMED" = none := by
  refine ⟨rfl, ?_, ?_⟩
  · exact ((colour_table_contents
        [("DONE", JVal.record "DarkGreen"), ("CLAIMED", JVal.scalar "-")]
        [("SEMAPHORED", JVal.record "grey")] "DONE"
        ⟨[("DONE", "DarkGreen"), ("SEMAPHORED", "grey")], 1, []⟩ rfl).2.1
      "DarkGreen" (by decide)
      (by
        intro c' hc'
        simp at hc'
        exact hc'))
  · exact ((colour_table_contents
        [("DONE", JVal.record "DarkGreen"), ("CLAIMED", JVal.scalar "-")]
        [("SEMAPHORED", JVal.record "grey")] "CLAIMED"
        ⟨[("DONE", "DarkGreen"), ("SEMAPHORED", "grey")], 1, []⟩ rfl).2.2
      (by
        intro c hc
        simp at hc))

/-- C3: when a label has a structured record in both sub-tables, the colour
table maps it to the `Colour` from the job-status sub-table — the one
processed second — whose insertion overwrites the analysis-status one. -/
theorem later_subtable_wins (asHash jsHash : List (String × JVal))
    (s ca cj : String) (st' : HiveState)
    (hload : load_colours_if_needed (.ok asHash jsHash) initState = .ok st')
    (_ha : (s, JVal.record ca) ∈ asHash)
    (hj : (s, JVal.record cj) ∈ jsHash)
    (huniq : ∀ c', (s, JVal.record c') ∈ jsHash → c' = cj) :
    dictLookup st'.colours s = some cj := by
  have hcol : st'.colours = addColours (addColours [] asHash) jsHash := by
    cases hload
    rfl
  obtain ⟨c', hc'⟩ := lastRecordColour_isSome hj
  have : c' = cj := huniq c' (lastRecordColour_mem hc')
  subst this
  rw [hcol, dictLookup_after_load, hc']
  rfl

/-- C3 witness: `"READY"` has record colour `"cyan"` in the analysis
sub-table and record colour `"DarkCyan"` in the job sub-table; the loaded
table maps it to `"DarkCyan"`, the value from the sub-table processed
second. -/
theorem later_subtable_wins_witness :
    load_colours_if_needed
        (.ok [("READY", JVal.record "cyan")]
             [("READY", JVal.record "DarkCyan")]) initState =
      .ok ⟨[("READY", "DarkCyan")], 1, []⟩ ∧
    dictLookup ([("READY", "DarkCyan")] : List (String × String)) "READY" =
      some "DarkCyan" := by
  refine ⟨rfl, ?_⟩
  exact later_subtable_wins [("READY", JVal.record "cyan")]
    [("READY", JVal.record "DarkCyan")] "READY" "cyan" "DarkCyan"
    ⟨[("READY", "DarkCyan")], 1, []⟩ rfl (by decide) (by decide)
    (by
      intro c' hc'
      rcases List.mem_cons.mp hc' with he | hm
      · cases he
        rfl
      · cases hm)

/-- C6: rendering a node whose status is mapped to colour `c` by the loaded
table emits, on the HTML backend, an opening tag containing
`background-color:` followed by `c` and the closing markup `</span>`, and on
the LaTeX backend a colour-box opening directive containing `c` and the
closing brace, with the label's rendered text unchanged between entry and
exit markup. -/
theorem render_wraps_label_in_colour_markup (asHash jsHash : List (String × JVal))
    (st : HiveState) (node : Hivestatus) (c : String)
    (h : dictLookup (addColours (addColours st.colours asHash) jsHash) node.status
          = some c) :
    (∃ st' op, renderNode_html (.ok asHash jsHash) st node = .ok st' ∧
        st'.body = st.body ++ [op, node.label, "</span>"] ∧
        ∃ p q, op = p ++ ("background-color:" ++ c) ++ q) ∧
    (∃ st' op, renderNode_latex (.ok asHash jsHash) st node = .ok st' ∧
        st'.body = st.body ++ [op, node.label, "\x7d"] ∧
        ∃ p q, op = p ++ c ++ q) := by
  constructor
  · refine ⟨⟨addColours (addColours st.colours asHash) jsHash, st.readCount + 1,
        st.body ++ ["<span style=\"background-color:" ++ c ++ "\">", node.label,
          "</span>"]⟩,
      "<span style=\"background-color:" ++ c ++ "\">", ?_, rfl,
      "<span style=\"", "\">", rfl⟩
    simp [renderNode_html, visit_hivestatus_html, load_colours_if_needed, h,
      depart_hivestatus_html]
  · refine ⟨⟨addColours (addColours st.colours asHash) jsHash, st.readCount + 1,
        st.body ++ ["\n\\colorbox\x7b" ++ c ++ "\x7d\x7b", node.label, "\x7d"]⟩,
      "\n\\colorbox\x7b" ++ c ++ "\x7d\x7b", ?_, rfl,
      "\n\\colorbox\x7b", "\x7d\x7b", rfl⟩
    simp [renderNode_latex, visit_hivestatus_latex, load_colours_if_needed, h,
      depart_hivestatus_latex]

/-- C6 witness: with `"done" ↦ "#00ff00"` loaded, rendering the node for
`"done"` with label `"All finished"` emits the coloured markup on both
backends. -/
theorem render_wraps_label_in_colour_markup_witness :
    dictLookup (addColours (addColours initState.colours
        [("done", JVal.record "#00ff00")]) []) "done" = some "#00ff00" ∧
    ((∃ st' op, renderNode_html (.ok [("done", JVal.record "#00ff00")] [])
          initState ⟨"done", "All finished"⟩ = .ok st' ∧
        st'.body = initState.body ++ [op, "All finished", "</span>"] ∧
        ∃ p q, op = p ++ ("background-color:" ++ "#00ff00") ++ q) ∧
     (∃ st' op, renderNode_latex (.ok [("done", JVal.record "#00ff00")] [])
          initState ⟨"done", "All finished"⟩ = .ok st' ∧
        st'.body = initState.body ++ [op, "All finished", "\x7d"] ∧
        ∃ p q, op = p ++ "#00ff00" ++ q)) :=
  ⟨rfl, render_wraps_label_in_colour_markup [("done", JVal.record "#00ff00")] []
    initState ⟨"done", "All finished"⟩ "#00ff00" rfl⟩

/-- C7: rendering a node whose status is absent from the colour table after
loading fails with the `KeyError` lookup error on both backends — no
default colour is emitted. -/
theorem visit_fails_on_unknown_status (asHash jsHash : List (String × JVal))
    (st : HiveState) (node : Hivestatus)
    (h : dictLookup (addColours (addColours st.colours asHash) jsHash) node.status
          = none) :
    visit_hivestatus_html (.ok asHash jsHash) st node = .error .keyError ∧
    visit_hivestatus_latex (.ok asHash jsHash) st node = .error .keyError := by
  constructor
  · simp [visit_hivestatus_html, load_colours_if_needed, h]
  · simp [visit_hivestatus_latex, load_colours_if_needed, h]

/-- C7 witness: with only `"done"` configured, visiting a node whose status
is `"unknown"` raises the lookup error on both backends. -/
theorem visit_fails_on_unknown_status_witness :
    dictLookup (addColours (addColours initState.colours
        [("done", JVal.record "#00ff00")]) []) "unknown" = none ∧
    visit_hivestatus_html (.ok [("done", JVal.record "#00ff00")] [])
        initState ⟨"unknown", "X"⟩ = .error .keyError ∧
    visit_hivestatus_latex (.ok [("done", JVal.record "#00ff00")] [])
        initState ⟨"unknown", "X"⟩ = .error .keyError := by
  refine ⟨rfl, ?_⟩
  exact visit_fails_on_unknown_status [("done", JVal.record "#00ff00")] []
    initState ⟨"unknown", "X"⟩ rfl

/-- C9: both render-entry callbacks run `load_colours_if_needed` before
their colour lookup, so whenever the node's status carries a structured
record in the configuration, the lookup is performed against a table
already populated from the file and cannot raise the lookup error — even
when the process-global table was empty beforehand (`st` is arbitrary,
including the initial state). -/
theorem visit_loads_table_before_lookup (asHash jsHash : List (String × JVal))
    (st : HiveState) (node : Hivestatus)
    (h : ∃ c, (node.status, JVal.record c) ∈ asHash ++ jsHash) :
    visit_hivestatus_html (.ok asHash jsHash) st node ≠ .error .keyError ∧
    visit_hivestatus_latex (.ok asHash jsHash) st node ≠ .error .keyError := by
  obtain ⟨c, hc⟩ := h
  have hsome : ∃ c', dictLookup
      (addColours (addColours st.colours asHash) jsHash) node.status = some c' := by
    rw [dictLookup_after_load]
    rcases List.mem_append.mp hc with h1 | h1
    · obtain ⟨ca, hca⟩ := lastRecordColour_isSome h1
      cases hjs : lastRecordColour jsHash node.status with
      | none => exact ⟨ca, by rw [hca]; rfl⟩
      | some cj => exact ⟨cj, rfl⟩
    · obtain ⟨cj, hcj⟩ := lastRecordColour_isSome h1
      exact ⟨cj, by rw [hcj]; rfl⟩
  obtain ⟨c', hc'⟩ := hsome
  constructor
  · simp [visit_hivestatus_html, load_colours_if_needed, hc']
  · simp [visit_hivestatus_latex, load_colours_if_needed, hc']

/-- C9 witness: starting from the empty initial table, a status with a
configured record renders without a lookup error on both backends. -/
theorem visit_loads_table_before_lookup_witness :
    (∃ c, (("done", JVal.record c) : String × JVal) ∈
        [("done", JVal.record "#00ff00")] ++ []) ∧
    visit_hivestatus_html (.ok [("done", JVal.record "#00ff00")] [])
        initState ⟨"done", "lbl"⟩ ≠ .error .keyError ∧
    visit_hivestatus_latex (.ok [("done", JVal.record "#00ff00")] [])
        initState ⟨"done", "lbl"⟩ ≠ .error .keyError := by
  refine ⟨⟨"#00ff00", by decide⟩, ?_⟩
  exact visit_loads_table_before_lookup [("done", JVal.record "#00ff00")] []
    initState ⟨"done", "lbl"⟩ ⟨"#00ff00", by decide⟩

end XHive
